import Mathlib

/-!
Verification of `scripts/deploy.js`.

A shallow embedding of the deployment script

```
const hre = require("hardhat");

async function main() {
  const Lock = await hre.ethers.getContractFactory("Lock");
  const lock = await Lock.deploy();

  await lock.deployed();

  console.log(`CONTRACT DEPLOYED TO ${lock.address}`);
}

main().catch((error) => {
  console.error(error);
  process.exitCode = 1;
});
```

The external framework (`hre`) is a parameter of the embedding: every awaited
call either resolves with a value or rejects with a thrown value of an
arbitrary type `ε`.  The process is a record of what the script can change:
standard output, standard error, `process.exitCode`, and (as instrumentation)
the ordered log of every effect performed.
-/

namespace Deploy

/-- A JavaScript value passed as a constructor argument to `deploy`. -/
inductive Value where
  | str (s : String)
  | num (n : Int)
  | bool (b : Bool)
  deriving DecidableEq, Repr

/-- The deployed contract object `lock`: its `address` property and the
outcome of awaiting `lock.deployed()`. -/
structure Contract (ε : Type) where
  address : String
  deployed : Except ε Unit

/-- The contract factory object `Lock`: the outcome of awaiting
`Lock.deploy(...args)`. -/
structure ContractFactory (ε : Type) where
  deploy : List Value → Except ε (Contract ε)

/-- The object `hre.ethers`: the outcome of awaiting
`getContractFactory(name)`. -/
structure Ethers (ε : Type) where
  getContractFactory : String → Except ε (ContractFactory ε)

/-- The framework handle `hre = require("hardhat")`. -/
structure Hre (ε : Type) where
  ethers : Ethers ε

/-- One effect performed by the script, in the order performed. -/
inductive Event (ε : Type) where
  | getContractFactory (name : String)
  | deploy (args : List Value)
  | deployed
  | consoleLog (text : String)
  | consoleError (error : ε)
  | setExitCode (code : Nat)
  deriving DecidableEq, Repr

/-- The process as the script can observe and change it.  `stdout` holds the
strings passed to `console.log`, one entry for each call (on the stream each
is followed by a line feed, see `Process.stdoutText`), `stderr` the values
passed to `console.error`, `exitCode` is `process.exitCode` (`none` while
unset) and `trace` logs every effect in order. -/
structure Process (ε : Type) where
  stdout : List String
  stderr : List ε
  exitCode : Option Nat
  trace : List (Event ε)
  deriving DecidableEq, Repr

/-- The process at script start: nothing written, `process.exitCode` unset. -/
def Process.init {ε : Type} : Process ε :=
  { stdout := [], stderr := [], exitCode := none, trace := [] }

/-- The status the process exits with: `process.exitCode` when set, `0`
otherwise. -/
def Process.exitStatus {ε : Type} (p : Process ε) : Nat :=
  p.exitCode.getD 0

/-- What a caller of the script can observe: standard output, standard error
and the exit status. -/
def Process.observable {ε : Type} (p : Process ε) : List String × List ε × Nat :=
  (p.stdout, p.stderr, p.exitStatus)

/-- The characters of standard output as a stream: every string passed to
`console.log`, each followed by the line feed `console.log` appends. -/
def Process.stdoutText {ε : Type} (p : Process ε) : List Char :=
  p.stdout.foldr (fun text rest => text.data ++ '\n' :: rest) []

/-- The lines of a text: a line feed ends the current line, and characters
after the last line feed form a final line. -/
def textLines : List Char → List (List Char)
  | [] => []
  | c :: cs =>
    if c = '\n' then [] :: textLines cs
    else
      match textLines cs with
      | [] => [[c]]
      | l :: ls => (c :: l) :: ls

/-- The lines of standard output, as a reader of the stream sees them. -/
def Process.stdoutLines {ε : Type} (p : Process ε) : List String :=
  (textLines p.stdoutText).map String.mk

/-- An `async` computation: from a process it gives the settled promise
(resolved with a value, or rejected with a thrown value) and the process
after its effects. -/
def Async (ε : Type) (α : Type) : Type :=
  Process ε → Except ε α × Process ε

/-- Sequencing of `async` computations: a rejection skips what follows. -/
instance {ε : Type} : Monad (Async ε) where
  pure a := fun p => (.ok a, p)
  bind x f := fun p =>
    match x p with
    | (.ok a, q) => f a q
    | (.error e, q) => (.error e, q)

/-- Append an effect to the trace. -/
def record {ε : Type} (ev : Event ε) : Async ε Unit :=
  fun p => (.ok (), { p with trace := p.trace ++ [ev] })

/-- Settle an awaited promise: resolve with its value or throw its rejection. -/
def await {ε α : Type} (r : Except ε α) : Async ε α :=
  fun p => (r, p)

/-- The method `promise.catch(handler)`: run the handler on a rejection. -/
def Async.catch {ε α : Type} (x : Async ε α) (handler : ε → Async ε α) : Async ε α :=
  fun p =>
    match x p with
    | (.ok a, q) => (.ok a, q)
    | (.error e, q) => handler e q

/-- The call `await hre.ethers.getContractFactory(name)`. -/
def Hre.getContractFactory {ε : Type} (hre : Hre ε) (name : String) :
    Async ε (ContractFactory ε) := do
  record (.getContractFactory name)
  await (hre.ethers.getContractFactory name)

/-- The call `await Lock.deploy(...args)`. -/
def ContractFactory.deployCall {ε : Type} (factory : ContractFactory ε)
    (args : List Value) : Async ε (Contract ε) := do
  record (.deploy args)
  await (factory.deploy args)

/-- The call `await lock.deployed()`. -/
def Contract.deployedCall {ε : Type} (contract : Contract ε) : Async ε Unit := do
  record .deployed
  await contract.deployed

/-- The call `console.log(text)`: one write to standard output, of the text
followed by a line feed.  The text is stored as one entry of `stdout`; it is
one line of the stream only when it holds no line feed itself. -/
def consoleLog {ε : Type} (text : String) : Async ε Unit := do
  record (.consoleLog text)
  fun p => (.ok (), { p with stdout := p.stdout ++ [text] })

/-- The call `console.error(error)`: the value on standard error. -/
def consoleError {ε : Type} (error : ε) : Async ε Unit := do
  record (.consoleError error)
  fun p => (.ok (), { p with stderr := p.stderr ++ [error] })

/-- The assignment `process.exitCode = code`. -/
def setExitCode {ε : Type} (code : Nat) : Async ε Unit := do
  record (.setExitCode code)
  fun p => (.ok (), { p with exitCode := some code })

/-- The function `main` of `deploy.js`. -/
def main {ε : Type} (hre : Hre ε) : Async ε Unit := do
  let Lock ← hre.getContractFactory "Lock"
  let lock ← Lock.deployCall []
  lock.deployedCall
  consoleLog ("CONTRACT DEPLOYED TO " ++ lock.address)

/-- The top level of `deploy.js`: `main().catch(handler)`. -/
def script {ε : Type} (hre : Hre ε) : Async ε Unit :=
  (main hre).catch fun error => do
    consoleError error
    setExitCode 1

/-- The process after one run of the script from a fresh process. -/
def run {ε : Type} (hre : Hre ε) : Process ε :=
  (script hre Process.init).2

/-- A mock framework: each of the three steps has a fixed outcome. -/
def mockHre {ε : Type} (lookup : Option ε) (deploy : Option ε) (confirm : Option ε)
    (address : String) : Hre ε :=
  { ethers :=
    { getContractFactory := fun _ =>
        match lookup with
        | some e => .error e
        | none => .ok
          { deploy := fun _ =>
              match deploy with
              | some e => .error e
              | none => .ok
                { address := address
                  deployed :=
                    match confirm with
                    | some e => .error e
                    | none => .ok () } } } }

/-- Factory lookup fails in a run against `hre`: the lookup the script makes
rejects with `e`. -/
def LookupFails {ε : Type} (hre : Hre ε) (e : ε) : Prop :=
  hre.ethers.getContractFactory "Lock" = .error e

/-- Deploy fails in a run against `hre`: lookup resolves with a factory whose
deploy rejects with `e`. -/
def DeployFails {ε : Type} (hre : Hre ε) (e : ε) : Prop :=
  ∃ F, hre.ethers.getContractFactory "Lock" = .ok F ∧ F.deploy [] = .error e

/-- Confirmation fails in a run against `hre`: lookup and deploy resolve and
awaiting `deployed()` on the contract rejects with `e`. -/
def ConfirmFails {ε : Type} (hre : Hre ε) (e : ε) : Prop :=
  ∃ F c, hre.ethers.getContractFactory "Lock" = .ok F ∧ F.deploy [] = .ok c ∧
    c.deployed = .error e

/-- One of the three delegated steps fails with `e`. -/
def Fails {ε : Type} (hre : Hre ε) (e : ε) : Prop :=
  LookupFails hre e ∨ DeployFails hre e ∨ ConfirmFails hre e

/-- All three delegated steps succeed and the deployed contract has address
`a`. -/
def Succeeds {ε : Type} (hre : Hre ε) (a : String) : Prop :=
  ∃ F c, hre.ethers.getContractFactory "Lock" = .ok F ∧ F.deploy [] = .ok c ∧
    c.deployed = .ok () ∧ c.address = a

/-- Scenario A: every step succeeds and the contract is at `0xABC123`. -/
def scenarioA : Hre String := mockHre none none none "0xABC123"

/-- Scenario B: deploy rejects with `"network timeout"`. -/
def scenarioB : Hre String := mockHre none (some "network timeout") none "0xABC123"

/-- Scenario C: factory lookup itself rejects. -/
def scenarioC : Hre String := mockHre (some "network timeout") none none "0xABC123"

/-- Scenario D: confirmation rejects. -/
def scenarioD : Hre String := mockHre none none (some "network timeout") "0xABC123"

/-- A successful run whose contract address holds a line feed. -/
def scenarioLineFeed : Hre String := mockHre none none none "0xAB\nC123"

/-- Is the effect a factory lookup? -/
def Event.isGetContractFactory {ε : Type} : Event ε → Bool
  | .getContractFactory _ => true
  | _ => false

/-- Is the effect a call of `deploy`? -/
def Event.isDeploy {ε : Type} : Event ε → Bool
  | .deploy _ => true
  | _ => false

/-- Is the effect a call of `deployed`? -/
def Event.isDeployed {ε : Type} : Event ε → Bool
  | .deployed => true
  | _ => false

/-- Is the effect a call of `console.error`? -/
def Event.isConsoleError {ε : Type} : Event ε → Bool
  | .consoleError _ => true
  | _ => false

/-- Is the effect an assignment to `process.exitCode`? -/
def Event.isSetExitCode {ε : Type} : Event ε → Bool
  | .setExitCode _ => true
  | _ => false

/-! The four runs of the script. -/

theorem run_of_lookupFails {ε : Type} (hre : Hre ε) (e : ε) (h : LookupFails hre e) :
    run hre = { stdout := [], stderr := [e], exitCode := some 1,
                trace := [.getContractFactory "Lock", .consoleError e, .setExitCode 1] } := by
  unfold LookupFails at h
  simp only [run, script, main, Async.catch, Hre.getContractFactory, bind, await, record, h]
  rfl

theorem run_of_deployFails {ε : Type} (hre : Hre ε) (e : ε) (h : DeployFails hre e) :
    run hre = { stdout := [], stderr := [e], exitCode := some 1,
                trace := [.getContractFactory "Lock", .deploy [], .consoleError e,
                  .setExitCode 1] } := by
  obtain ⟨F, hF, hd⟩ := h
  simp only [run, script, main, Async.catch, Hre.getContractFactory,
    ContractFactory.deployCall, bind, await, record, hF, hd]
  rfl

theorem run_of_confirmFails {ε : Type} (hre : Hre ε) (e : ε) (h : ConfirmFails hre e) :
    run hre = { stdout := [], stderr := [e], exitCode := some 1,
                trace := [.getContractFactory "Lock", .deploy [], .deployed,
                  .consoleError e, .setExitCode 1] } := by
  obtain ⟨F, c, hF, hd, hc⟩ := h
  simp only [run, script, main, Async.catch, Hre.getContractFactory,
    ContractFactory.deployCall, Contract.deployedCall, bind, await, record, hF, hd, hc]
  rfl

theorem run_of_succeeds {ε : Type} (hre : Hre ε) (a : String) (h : Succeeds hre a) :
    run hre = { stdout := ["CONTRACT DEPLOYED TO " ++ a], stderr := [], exitCode := none,
                trace := [.getContractFactory "Lock", .deploy [], .deployed,
                  .consoleLog ("CONTRACT DEPLOYED TO " ++ a)] } := by
  obtain ⟨F, c, hF, hd, hc, ha⟩ := h
  subst ha
  simp only [run, script, main, Async.catch, Hre.getContractFactory,
    ContractFactory.deployCall, Contract.deployedCall, bind, await, record, hF, hd, hc]
  rfl

/-- Every run is a success or a failure of exactly the kinds above. -/
theorem succeeds_or_fails {ε : Type} (hre : Hre ε) :
    (∃ a, Succeeds hre a) ∨ (∃ e, Fails hre e) := by
  cases hF : hre.ethers.getContractFactory "Lock" with
  | error e => exact Or.inr ⟨e, Or.inl hF⟩
  | ok F =>
    cases hd : F.deploy [] with
    | error e => exact Or.inr ⟨e, Or.inr (Or.inl ⟨F, hF, hd⟩)⟩
    | ok c =>
      cases hc : c.deployed with
      | error e => exact Or.inr ⟨e, Or.inr (Or.inr ⟨F, c, hF, hd, hc⟩)⟩
      | ok u => exact Or.inl ⟨c.address, F, c, hF, hd, hc, rfl⟩

theorem run_of_fails {ε : Type} (hre : Hre ε) (e : ε) (h : Fails hre e) :
    (run hre).stdout = [] ∧ (run hre).stderr = [e] ∧ (run hre).exitCode = some 1 := by
  rcases h with h | h | h
  · rw [run_of_lookupFails hre e h]; exact ⟨rfl, rfl, rfl⟩
  · rw [run_of_deployFails hre e h]; exact ⟨rfl, rfl, rfl⟩
  · rw [run_of_confirmFails hre e h]; exact ⟨rfl, rfl, rfl⟩

theorem scenarioA_succeeds : Succeeds scenarioA "0xABC123" :=
  ⟨_, _, rfl, rfl, rfl, rfl⟩

theorem scenarioB_deployFails : DeployFails scenarioB "network timeout" :=
  ⟨_, rfl, rfl⟩

theorem scenarioC_lookupFails : LookupFails scenarioC "network timeout" :=
  rfl

theorem scenarioD_confirmFails : ConfirmFails scenarioD "network timeout" :=
  ⟨_, _, rfl, rfl, rfl⟩

/-- A run cannot both succeed and fail. -/
theorem not_fails_of_succeeds {ε : Type} (hre : Hre ε) (a : String) (e : ε)
    (hs : Succeeds hre a) : ¬ Fails hre e := by
  intro hf
  have h1 := (run_of_fails hre e hf).2.2
  rw [run_of_succeeds hre a hs] at h1
  exact Option.noConfusion h1

/-- A text without line feed, followed by a line feed, is one line. -/
theorem textLines_append_lineFeed (cs : List Char) (h : '\n' ∉ cs) :
    textLines (cs ++ ['\n']) = [cs] := by
  induction cs with
  | nil => rfl
  | cons c cs ih =>
    have hc : c ≠ '\n' := fun hc => h (hc ▸ List.mem_cons_self _ _)
    have hcs : '\n' ∉ cs := fun hm => h (List.mem_cons_of_mem _ hm)
    have ih2 := ih hcs
    show textLines (c :: (cs ++ ['\n'])) = [c :: cs]
    unfold textLines
    rw [if_neg hc, ih2]

/-! The properties of the specification. -/

/-- C1, as stated, fails: with the address `0xAB`, line feed, `C123` every
step succeeds and `console.log` is called once, yet standard output holds two
lines, so it is not the one line `CONTRACT DEPLOYED TO ` followed by the
address. -/
theorem success_two_lines_counterexample :
    Succeeds scenarioLineFeed "0xAB\nC123" ∧
      (run scenarioLineFeed).stdoutLines = ["CONTRACT DEPLOYED TO 0xAB", "C123"] ∧
      (run scenarioLineFeed).stdoutLines.length = 2 ∧
      (run scenarioLineFeed).stdoutLines ≠ ["CONTRACT DEPLOYED TO " ++ "0xAB\nC123"] :=
  ⟨⟨_, _, rfl, rfl, rfl, rfl⟩, by decide, by decide, by decide⟩

/-- C1, amended: when factory lookup, deploy and confirmation all succeed and
the deployed contract's address `a` holds no line feed, the run calls
`console.log` once, standard output is exactly one line, that line is
`CONTRACT DEPLOYED TO ` followed by `a` unchanged, the exit code is never set,
and the process exits with status `0`. -/
theorem success_prints_address {ε : Type} (hre : Hre ε) (a : String)
    (h : Succeeds hre a) (hlf : '\n' ∉ a.data) :
    (run hre).stdoutLines = ["CONTRACT DEPLOYED TO " ++ a] ∧
      (run hre).stdoutText = ("CONTRACT DEPLOYED TO " ++ a).data ++ ['\n'] ∧
      (run hre).stdout = ["CONTRACT DEPLOYED TO " ++ a] ∧
      (run hre).exitCode = none ∧
      (∀ n, Event.setExitCode n ∉ (run hre).trace) ∧
      (run hre).exitStatus = 0 := by
  rw [run_of_succeeds hre a h]
  refine ⟨?_, rfl, rfl, rfl, ?_, rfl⟩
  · have hmem : '\n' ∉ ("CONTRACT DEPLOYED TO " ++ a).data := by
      rw [String.data_append, List.mem_append]
      rintro (hp | ha)
      · revert hp; decide
      · exact hlf ha
    show (textLines (("CONTRACT DEPLOYED TO " ++ a).data ++ ['\n'])).map String.mk
      = ["CONTRACT DEPLOYED TO " ++ a]
    rw [textLines_append_lineFeed _ hmem]
    rfl
  · intro n hn
    simp at hn

/-- Scenario A: address `0xABC123` gives the single line
`CONTRACT DEPLOYED TO 0xABC123` and exit status `0`. -/
theorem success_prints_address_witness :
    Succeeds scenarioA "0xABC123" ∧ '\n' ∉ "0xABC123".data ∧
      (run scenarioA).stdoutLines = ["CONTRACT DEPLOYED TO 0xABC123"] ∧
      (run scenarioA).stdout = ["CONTRACT DEPLOYED TO 0xABC123"] ∧
      (run scenarioA).exitStatus = 0 :=
  ⟨scenarioA_succeeds, by decide,
    (success_prints_address scenarioA "0xABC123" scenarioA_succeeds (by decide)).1,
    (success_prints_address scenarioA "0xABC123" scenarioA_succeeds (by decide)).2.2.1,
    (success_prints_address scenarioA "0xABC123" scenarioA_succeeds (by decide)).2.2.2.2.2⟩

/-- C2: when factory lookup, deploy or confirmation fails with `e`, the run
writes `e` itself to standard error and the process exits with status `1`. -/
theorem failure_reports_error {ε : Type} (hre : Hre ε) (e : ε) (h : Fails hre e) :
    e ∈ (run hre).stderr ∧ (run hre).stderr = [e] ∧
      (run hre).exitCode = some 1 ∧ (run hre).exitStatus = 1 := by
  obtain ⟨-, herr, hcode⟩ := run_of_fails hre e h
  refine ⟨?_, herr, hcode, ?_⟩
  · rw [herr]; exact List.mem_singleton.mpr rfl
  · unfold Process.exitStatus; rw [hcode]; rfl

/-- Scenario B: deploy rejecting with `"network timeout"` puts
`"network timeout"` on standard error and gives exit status `1`; so do a
rejecting lookup and a rejecting confirmation. -/
theorem failure_reports_error_witness :
    (Fails scenarioB "network timeout" ∧
      (run scenarioB).stderr = ["network timeout"] ∧ (run scenarioB).exitStatus = 1) ∧
    ((run scenarioC).stderr = ["network timeout"] ∧ (run scenarioC).exitStatus = 1) ∧
    ((run scenarioD).stderr = ["network timeout"] ∧ (run scenarioD).exitStatus = 1) :=
  ⟨⟨Or.inr (Or.inl scenarioB_deployFails),
      (failure_reports_error scenarioB _ (Or.inr (Or.inl scenarioB_deployFails))).2.1,
      (failure_reports_error scenarioB _ (Or.inr (Or.inl scenarioB_deployFails))).2.2.2⟩,
    ⟨(failure_reports_error scenarioC _ (Or.inl scenarioC_lookupFails)).2.1,
      (failure_reports_error scenarioC _ (Or.inl scenarioC_lookupFails)).2.2.2⟩,
    ⟨(failure_reports_error scenarioD _ (Or.inr (Or.inr scenarioD_confirmFails))).2.1,
      (failure_reports_error scenarioD _ (Or.inr (Or.inr scenarioD_confirmFails))).2.2.2⟩⟩

/-- C3: when factory lookup, deploy or confirmation fails, standard output of
the run is empty and `console.log` is never called. -/
theorem failure_prints_nothing {ε : Type} (hre : Hre ε) (e : ε) (h : Fails hre e) :
    (run hre).stdout = [] ∧ ∀ line, Event.consoleLog line ∉ (run hre).trace := by
  refine ⟨(run_of_fails hre e h).1, ?_⟩
  intro line hmem
  rcases h with h | h | h
  · rw [run_of_lookupFails hre e h] at hmem; simp at hmem
  · rw [run_of_deployFails hre e h] at hmem; simp at hmem
  · rw [run_of_confirmFails hre e h] at hmem; simp at hmem

/-- Scenarios B, C and D leave standard output empty. -/
theorem failure_prints_nothing_witness :
    (run scenarioB).stdout = [] ∧ (run scenarioC).stdout = [] ∧
      (run scenarioD).stdout = [] :=
  ⟨(failure_prints_nothing scenarioB _ (Or.inr (Or.inl scenarioB_deployFails))).1,
    (failure_prints_nothing scenarioC _ (Or.inl scenarioC_lookupFails)).1,
    (failure_prints_nothing scenarioD _ (Or.inr (Or.inr scenarioD_confirmFails))).1⟩

/-- C4: `process.exitCode` is set to a non-zero value exactly when one of the
delegated steps fails; on every failing run the script assigns it `1`, and on
every successful run it is left unset, so that the process exits with `0`. -/
theorem exitCode_nonzero_iff_fails {ε : Type} (hre : Hre ε) :
    ((∃ n, (run hre).exitCode = some n ∧ n ≠ 0) ↔ ∃ e, Fails hre e) ∧
      ((∃ e, Fails hre e) →
        (run hre).exitCode = some 1 ∧ Event.setExitCode 1 ∈ (run hre).trace) ∧
      ((∃ a, Succeeds hre a) →
        (run hre).exitCode = none ∧ (run hre).exitStatus = 0 ∧
          ∀ n, Event.setExitCode n ∉ (run hre).trace) := by
  refine ⟨⟨?_, ?_⟩, ?_, ?_⟩
  · rintro ⟨n, hn, -⟩
    rcases succeeds_or_fails hre with ⟨a, hs⟩ | hf
    · rw [run_of_succeeds hre a hs] at hn
      exact Option.noConfusion hn
    · exact hf
  · rintro ⟨e, hf⟩
    exact ⟨1, (run_of_fails hre e hf).2.2, Nat.one_ne_zero⟩
  · rintro ⟨e, hf⟩
    refine ⟨(run_of_fails hre e hf).2.2, ?_⟩
    rcases hf with h | h | h
    · rw [run_of_lookupFails hre e h]; simp
    · rw [run_of_deployFails hre e h]; simp
    · rw [run_of_confirmFails hre e h]; simp
  · rintro ⟨a, hs⟩
    rw [run_of_succeeds hre a hs]
    refine ⟨rfl, rfl, ?_⟩
    intro n hn
    simp at hn

/-- C5: the failure path does not depend on the step that failed: runs in
which lookup, deploy and confirmation fail with the same `e` have the same
standard output, standard error and exit code. -/
theorem failure_path_uniform {ε : Type} (e : ε) (hre₁ hre₂ hre₃ : Hre ε)
    (h₁ : LookupFails hre₁ e) (h₂ : DeployFails hre₂ e) (h₃ : ConfirmFails hre₃ e) :
    ((run hre₁).observable = (run hre₂).observable ∧
      (run hre₂).observable = (run hre₃).observable) ∧
    ((run hre₁).exitCode = (run hre₂).exitCode ∧
      (run hre₂).exitCode = (run hre₃).exitCode) := by
  rw [run_of_lookupFails hre₁ e h₁, run_of_deployFails hre₂ e h₂,
    run_of_confirmFails hre₃ e h₃]
  exact ⟨⟨rfl, rfl⟩, rfl, rfl⟩

/-- Scenario C (lookup rejects) follows the same failure path as Scenario B
(deploy rejects) and as a rejecting confirmation. -/
theorem failure_path_uniform_witness :
    (run scenarioC).observable = ([], ["network timeout"], 1) ∧
      (run scenarioC).observable = (run scenarioB).observable ∧
      (run scenarioB).observable = (run scenarioD).observable :=
  ⟨by decide,
    (failure_path_uniform "network timeout" scenarioC scenarioB scenarioD
      scenarioC_lookupFails scenarioB_deployFails scenarioD_confirmFails).1.1,
    (failure_path_uniform "network timeout" scenarioC scenarioB scenarioD
      scenarioC_lookupFails scenarioB_deployFails scenarioD_confirmFails).1.2⟩

/-- C6: in every run, whatever the framework does, the first effect is a
factory lookup for the name `"Lock"` and no other lookup is made; every call
of `deploy` passes no constructor arguments, and `deploy` is so called on the
factory whenever the lookup returned one. -/
theorem lookup_name_fixed {ε : Type} (hre : Hre ε) :
    (∃ rest, (run hre).trace = Event.getContractFactory "Lock" :: rest ∧
        ∀ name, Event.getContractFactory name ∉ rest) ∧
      (∀ args, Event.deploy args ∈ (run hre).trace → args = []) ∧
      (∀ F, hre.ethers.getContractFactory "Lock" = .ok F →
        Event.deploy [] ∈ (run hre).trace) := by
  rcases succeeds_or_fails hre with ⟨a, hs⟩ | ⟨e, h | h | h⟩
  · rw [run_of_succeeds hre a hs]
    exact ⟨⟨_, rfl, by simp⟩, by simp, by simp⟩
  · rw [run_of_lookupFails hre e h]
    refine ⟨⟨_, rfl, by simp⟩, by simp, ?_⟩
    intro F hF
    unfold LookupFails at h
    rw [h] at hF
    exact Except.noConfusion hF
  · rw [run_of_deployFails hre e h]
    exact ⟨⟨_, rfl, by simp⟩, by simp, by simp⟩
  · rw [run_of_confirmFails hre e h]
    exact ⟨⟨_, rfl, by simp⟩, by simp, by simp⟩

/-- C7: the steps run in the order lookup, deploy, confirmation, print.  A
failed lookup ends the calls after the lookup, a failed deploy ends them after
the deploy, a failed confirmation ends them after the confirmation, and a line
is printed only in a run whose confirmation succeeded, as the last effect
after the three calls. -/
theorem steps_in_order {ε : Type} (hre : Hre ε) :
    (∀ e, LookupFails hre e →
        (run hre).trace =
          [.getContractFactory "Lock", .consoleError e, .setExitCode 1]) ∧
      (∀ e, DeployFails hre e →
        (run hre).trace =
          [.getContractFactory "Lock", .deploy [], .consoleError e, .setExitCode 1]) ∧
      (∀ e, ConfirmFails hre e →
        (run hre).trace =
          [.getContractFactory "Lock", .deploy [], .deployed, .consoleError e,
            .setExitCode 1]) ∧
      (∀ a, Succeeds hre a →
        (run hre).trace =
          [.getContractFactory "Lock", .deploy [], .deployed,
            .consoleLog ("CONTRACT DEPLOYED TO " ++ a)]) ∧
      (∀ line, Event.consoleLog line ∈ (run hre).trace →
        (∃ a, Succeeds hre a) ∧
          (run hre).trace =
            [.getContractFactory "Lock", .deploy [], .deployed, .consoleLog line]) := by
  refine ⟨?_, ?_, ?_, ?_, ?_⟩
  · intro e h; rw [run_of_lookupFails hre e h]
  · intro e h; rw [run_of_deployFails hre e h]
  · intro e h; rw [run_of_confirmFails hre e h]
  · intro a h; rw [run_of_succeeds hre a h]
  · intro line hmem
    rcases succeeds_or_fails hre with ⟨a, hs⟩ | ⟨e, h | h | h⟩
    · refine ⟨⟨a, hs⟩, ?_⟩
      rw [run_of_succeeds hre a hs] at hmem ⊢
      simp at hmem
      rw [hmem]
    · rw [run_of_lookupFails hre e h] at hmem; simp at hmem
    · rw [run_of_deployFails hre e h] at hmem; simp at hmem
    · rw [run_of_confirmFails hre e h] at hmem; simp at hmem

/-- C8: no step is retried: in every run lookup, deploy and confirmation are
each invoked at most once; on a failing run the handler runs once, so that
standard error holds the error and nothing else. -/
theorem no_retry {ε : Type} (hre : Hre ε) :
    ((run hre).trace.countP Event.isGetContractFactory ≤ 1 ∧
        (run hre).trace.countP Event.isDeploy ≤ 1 ∧
        (run hre).trace.countP Event.isDeployed ≤ 1) ∧
      (∀ e, Fails hre e →
        (run hre).stderr = [e] ∧
          (run hre).trace.filter Event.isConsoleError = [.consoleError e] ∧
          (run hre).trace.filter Event.isSetExitCode = [.setExitCode 1]) := by
  constructor
  · rcases succeeds_or_fails hre with ⟨a, hs⟩ | ⟨e, h | h | h⟩
    · rw [run_of_succeeds hre a hs]
      simp [List.countP_cons, Event.isGetContractFactory, Event.isDeploy, Event.isDeployed]
    · rw [run_of_lookupFails hre e h]
      simp [List.countP_cons, Event.isGetContractFactory, Event.isDeploy, Event.isDeployed]
    · rw [run_of_deployFails hre e h]
      simp [List.countP_cons, Event.isGetContractFactory, Event.isDeploy, Event.isDeployed]
    · rw [run_of_confirmFails hre e h]
      simp [List.countP_cons, Event.isGetContractFactory, Event.isDeploy, Event.isDeployed]
  · intro e hf
    refine ⟨(run_of_fails hre e hf).2.1, ?_⟩
    rcases hf with h | h | h
    · rw [run_of_lookupFails hre e h]; exact ⟨rfl, rfl⟩
    · rw [run_of_deployFails hre e h]; exact ⟨rfl, rfl⟩
    · rw [run_of_confirmFails hre e h]; exact ⟨rfl, rfl⟩

/-- C9: a successful run writes nothing to standard error, and every run
writes to exactly one of the two streams: to standard output alone when it
succeeds, to standard error alone when it fails. -/
theorem one_stream_written {ε : Type} (hre : Hre ε) :
    ((∃ a, Succeeds hre a) → (run hre).stderr = []) ∧
      (((∃ a, Succeeds hre a) ∧ (run hre).stdout ≠ [] ∧ (run hre).stderr = []) ∨
        ((∃ e, Fails hre e) ∧ (run hre).stdout = [] ∧ (run hre).stderr ≠ [])) := by
  constructor
  · rintro ⟨a, hs⟩
    rw [run_of_succeeds hre a hs]
  · rcases succeeds_or_fails hre with ⟨a, hs⟩ | ⟨e, hf⟩
    · left
      refine ⟨⟨a, hs⟩, ?_⟩
      rw [run_of_succeeds hre a hs]
      exact ⟨List.cons_ne_nil _ _, rfl⟩
    · right
      obtain ⟨hout, herr, -⟩ := run_of_fails hre e hf
      refine ⟨⟨e, hf⟩, hout, ?_⟩
      rw [herr]
      exact List.cons_ne_nil _ _

end Deploy
